import Mathlib

/-!
Verification development for the Scheduler/Prioritization engine of the
personal-productivity agent (`agents/scheduler_agent/agent.py`, class
`SchedulerAgent`).

Shallow embedding conventions:
* Naive local timestamps are modelled as integer seconds since
  2024-01-01 00:00:00 (which was a Monday), at second granularity.
  Python `datetime` comparison, `timedelta` addition, `weekday()`, `.hour`
  and `.replace(hour=…, minute=0)` become integer arithmetic on this clock.
* Record fields that the Python code reads with `dict.get` (and which may be
  missing, `None`, or — for timestamps — unparseable by
  `datetime.fromisoformat` after stripping a trailing `Z`) are modelled as
  `Option` fields, with `none` standing for "missing / None / unparseable".
* The `while` loop of `find_available_slots` is embedded with explicit fuel:
  `none` means the fuel ran out, i.e. the loop has not terminated within
  that many iterations.  Statements about results quantify over all fuels.
* Python `list.sort` (a stable sort) is embedded as insertion sort
  (`stableSort`), which computes the same function: the stable sort of a
  list with respect to a total preorder is unique.
-/

namespace SchedulerAgent

/-! ## Time model -/

/-- Calendar day index of a timestamp (floor division, as Python dates). -/
def dayOf (t : Int) : Int := t / 86400

/-- `datetime.hour`: hour-of-day of a timestamp. -/
def hourOf (t : Int) : Int := (t % 86400) / 3600

/-- `datetime.weekday()`: 0 = Monday … 6 = Sunday (epoch day 0 is a Monday). -/
def weekdayOf (t : Int) : Int := dayOf t % 7

/-- `t.replace(hour := h, minute := m)` — keeps the day and the seconds. -/
def replaceHM (t h m : Int) : Int := dayOf t * 86400 + h * 3600 + m * 60 + t % 60

/-- `(t + timedelta(days=1)).replace(hour := h, minute := 0)`. -/
def nextDayAt (t h : Int) : Int := replaceHM (t + 86400) h 0

/-- `t.replace(hour := h, minute := 0, second := 0, microsecond := 0)`. -/
def replaceHMS0 (t h : Int) : Int := dayOf t * 86400 + h * 3600

/-- `%A` weekday names, indexed as Python `weekday()`. -/
def weekdayName (w : Int) : String :=
  if w = 0 then "Monday" else if w = 1 then "Tuesday" else if w = 2 then "Wednesday"
  else if w = 3 then "Thursday" else if w = 4 then "Friday"
  else if w = 5 then "Saturday" else "Sunday"

/-- `%B` month names. -/
def monthName (m : Int) : String :=
  if m = 1 then "January" else if m = 2 then "February" else if m = 3 then "March"
  else if m = 4 then "April" else if m = 5 then "May" else if m = 6 then "June"
  else if m = 7 then "July" else if m = 8 then "August" else if m = 9 then "September"
  else if m = 10 then "October" else if m = 11 then "November" else "December"

/-- Gregorian (year, month, day) from a day count relative to 1970-01-01
(the standard civil-from-days conversion). -/
def civilFromDays (z0 : Int) : Int × Int × Int :=
  let z := z0 + 719468
  let era := z / 146097
  let doe := z - era * 146097
  let yoe := (doe - doe / 1460 + doe / 36524 - doe / 146096) / 365
  let y := yoe + era * 400
  let doy := doe - (365 * yoe + yoe / 4 - yoe / 100)
  let mp := (5 * doy + 2) / 153
  let d := doy - (153 * mp + 2) / 5 + 1
  let m := mp + (if mp < 10 then 3 else -9)
  (y + (if m ≤ 2 then 1 else 0), m, d)

/-- `%d`: zero-padded day of month. -/
def pad2 (n : Int) : String := if n < 10 then "0" ++ toString n else toString n

/-- `current.strftime("%A, %B %d")` (epoch day 0 = 2024-01-01 = day 19723
since 1970-01-01). -/
def dayLabel (t : Int) : String :=
  let c := civilFromDays (dayOf t + 19723)
  weekdayName (weekdayOf t) ++ ", " ++ monthName c.2.1 ++ " " ++ pad2 c.2.2

/-! ## Data model -/

/-- A calendar event record as consumed by `find_available_slots`: `start?`
and `end?` are the parsed `start` / `end` timestamps, `none` when the key is
missing, falsy, or `datetime.fromisoformat` fails on it. -/
structure CalendarEvent where
  subject : String
  start? : Option Int
  end? : Option Int
deriving DecidableEq, Repr

/-- An available slot as produced by `find_available_slots` (`start` / `end`
hold the timestamps whose `isoformat()` the Python dict stores). -/
structure Slot where
  start : Int
  «end» : Int
  duration_minutes : Int
  day : String
deriving DecidableEq, Repr

/-- Lines 99-104: the slot dict appended to `available_slots`. -/
def mkSlot (current slotEnd durMin : Int) : Slot :=
  { start := current, «end» := slotEnd, duration_minutes := durMin, day := dayLabel current }

/-- Lines 54-62: events with both endpoints present and parseable become
busy intervals; the rest are skipped. -/
def busyIntervalsOf (events : List CalendarEvent) : List (Int × Int) :=
  events.filterMap fun e =>
    match e.start?, e.end? with
    | some s, some t => some (s, t)
    | _, _ => none

/-! ## Stable sorting (Python `list.sort`) -/

/-- Insert `a` before the first element `b` with `le a b`. -/
def ordInsert (le : α → α → Bool) (a : α) : List α → List α
  | [] => [a]
  | b :: l => if le a b then a :: b :: l else b :: ordInsert le a l

/-- Insertion sort; for a total transitive `le` this is the unique stable
sort, hence the function computed by Python `list.sort`. -/
def stableSort (le : α → α → Bool) : List α → List α
  | [] => []
  | a :: l => ordInsert le a (stableSort le l)

/-! ## Slot finder (`find_available_slots`, lines 17-107) -/

/-- Lines 90-95: scan the sorted busy list; return the `busy_end` of the
first interval that conflicts with the candidate `[current, slotEnd)`. -/
def firstConflict (current slotEnd : Int) : List (Int × Int) → Option Int
  | [] => none
  | b :: rest =>
    if ¬ (slotEnd ≤ b.1 ∨ current ≥ b.2) then some b.2
    else firstConflict current slotEnd rest

/-- Lines 86-105: one candidate examination.  Returns the new cursor and the
new accumulator: on a conflict the cursor jumps to the busy end; otherwise
the slot is appended when its end hour is within working hours, and the
cursor advances to the slot end either way. -/
def candidateStep (busy : List (Int × Int)) (durMin whe current : Int)
    (acc : List Slot) : Int × List Slot :=
  let slotEnd := current + durMin * 60
  match firstConflict current slotEnd busy with
  | some busyEnd => (busyEnd, acc)
  | none =>
    (slotEnd,
     if hourOf slotEnd ≤ whe then acc ++ [mkSlot current slotEnd durMin] else acc)

/-- Lines 71-107: the scanning `while` loop, with explicit fuel (one unit
per iteration; `none` = the loop did not finish within `fuel` iterations). -/
def findLoop (busy : List (Int × Int)) (durMin whs whe endT : Int) :
    Nat → Int → List Slot → Option (List Slot)
  | 0, _, _ => none
  | fuel + 1, current, acc =>
    if current < endT ∧ acc.length < 10 then
      if weekdayOf current ≥ 5 then
        findLoop busy durMin whs whe endT fuel (nextDayAt current whs) acc
      else if hourOf current < whs then
        let st := candidateStep busy durMin whe (replaceHM current whs 0) acc
        findLoop busy durMin whs whe endT fuel st.1 st.2
      else if hourOf current ≥ whe then
        findLoop busy durMin whs whe endT fuel (nextDayAt current whs) acc
      else
        let st := candidateStep busy durMin whe current acc
        findLoop busy durMin whs whe endT fuel st.1 st.2
    else some acc

/-- `find_available_slots` (lines 17-107).  `start_date` / `end_date` are the
parsed optional arguments; `now` models `datetime.now()`; `fuel` bounds the
loop as explained above. -/
def find_available_slots (calendar_events : List CalendarEvent)
    (duration_minutes : Int) (start_date end_date : Option Int)
    (working_hours_start working_hours_end : Int) (now : Int) (fuel : Nat) :
    Option (List Slot) :=
  let start :=
    match start_date with
    | some s => s
    | none =>
      let s0 := replaceHMS0 now working_hours_start
      if hourOf now ≥ working_hours_start then s0 + 86400 else s0
  let endT :=
    match end_date with
    | some e => e
    | none => start + 5 * 86400
  let busy := stableSort (fun a b => decide (a.1 ≤ b.1)) (busyIntervalsOf calendar_events)
  findLoop busy duration_minutes working_hours_start working_hours_end endT fuel start []

/-! ## Task prioritizer (`prioritize_tasks`, lines 109-195) -/

/-- A task record: `status` and `importance` are `none` when the key is
missing; `dueDate` is the parsed due timestamp, `none` when missing, falsy,
or unparseable. -/
structure Task where
  title : String
  listName : String
  status : Option String
  importance : Option String
  dueDate : Option Int
  body : String
deriving DecidableEq, Repr

/-- The output record `{**task, priority_score, priority_reasons,
recommendation}`. -/
structure PrioritizedTask where
  task : Task
  priority_score : Int
  priority_reasons : List String
  recommendation : String
deriving DecidableEq, Repr

/-- `_get_task_recommendation` (lines 186-195). -/
def get_task_recommendation (score : Int) : String :=
  if score ≥ 50 then "🔴 Do this immediately"
  else if score ≥ 30 then "🟠 High priority - tackle today"
  else if score ≥ 15 then "🟡 Schedule time this week"
  else "🟢 Can wait - schedule when convenient"

/-- Lines 128-179: score one (non-completed) task.  `now` models
`datetime.now()`, `(due - now).days` is floor division by one day. -/
def scoreTask (criteria : String) (now : Int) (task : Task) : PrioritizedTask :=
  let importance := task.importance.getD "normal"
  let p1 : Int × List String :=
    if importance = "high" then (30, ["High importance"])
    else if importance = "low" then (-10, []) else (0, [])
  let p2 : Int × List String :=
    match task.dueDate with
    | none => p1
    | some due =>
      let days_until_due := (due - now) / 86400
      if days_until_due < 0 then
        let overdueDays := -days_until_due
        (p1.1 + 50, p1.2 ++ [s!"OVERDUE by {overdueDays} days"])
      else if days_until_due = 0 then (p1.1 + 40, p1.2 ++ ["Due TODAY"])
      else if days_until_due ≤ 2 then (p1.1 + 30, p1.2 ++ [s!"Due in {days_until_due} days"])
      else if days_until_due ≤ 7 then (p1.1 + 15, p1.2 ++ ["Due this week"])
      else p1
  let score : Int :=
    if criteria = "importance" then
      (if importance = "high" then p2.1 + 20 else p2.1)
    else if criteria = "urgency" then p2.1
    else p2.1
  { task := task, priority_score := score, priority_reasons := p2.2,
    recommendation := get_task_recommendation score }

/-- `prioritize_tasks` (lines 109-184): drop completed tasks, score the
rest in input order, then sort stably by descending `priority_score`
(Python `list.sort(key=…, reverse=True)`). -/
def prioritize_tasks (tasks : List Task) (criteria : String) (now : Int) :
    List PrioritizedTask :=
  let prioritized :=
    (tasks.filter fun t => !(t.status == some "completed")).map (scoreTask criteria now)
  stableSort (fun a b => decide (b.priority_score ≤ a.priority_score)) prioritized

/-! ## Email classifier & summarizer (`summarize_emails`, lines 197-283) -/

/-- An email record (`none` = key missing or `None`). -/
structure Email where
  subject : Option String
  «from» : Option String
  fromEmail : Option String
  receivedDateTime : Option String
  isRead : Bool
  importance : Option String
  preview : Option String
deriving DecidableEq, Repr

/-- The four keys of the internal `categories` dict. -/
inductive Category where
  | action_required
  | fyi
  | meetings
  | other
deriving DecidableEq, Repr, BEq

def action_keywords : List String :=
  ["please", "action", "required", "urgent", "asap", "deadline", "review", "approve"]

def meeting_keywords : List String :=
  ["meeting", "invite", "calendar", "schedule", "call", "sync"]

/-- Python `str.lower()` (ASCII lowering suffices for the keyword data). -/
def strToLower (s : String) : String := String.mk (s.data.map Char.toLower)

/-- Does the first list occur as a prefix of the second? -/
def listStartsWith [BEq a] : List a → List a → Bool
  | [], _ => true
  | _ :: _, [] => false
  | x :: xs, y :: ys => x == y && listStartsWith xs ys

/-- Does `pat` occur contiguously somewhere in the text? -/
def containsSubAux (pat : List Char) : List Char → Bool
  | [] => listStartsWith pat []
  | c :: rest => listStartsWith pat (c :: rest) || containsSubAux pat rest

/-- Python `sub in s` substring containment. -/
def containsSub (s sub : String) : Bool := containsSubAux sub.data s.data

/-- Lines 230-232: `(subject or "").lower() + " " + (preview or "").lower()`. -/
def combinedText (e : Email) : String :=
  strToLower (e.subject.getD "") ++ " " ++ strToLower (e.preview.getD "")

/-- Lines 234-241: the first matching rule wins. -/
def classifyEmail (e : Email) : Category :=
  if meeting_keywords.any (fun kw => containsSub (combinedText e) kw) then .meetings
  else if action_keywords.any (fun kw => containsSub (combinedText e) kw) then .action_required
  else if e.importance == some "high" then .action_required
  else .fyi

/-- The four category lists built by the loop of lines 229-241. -/
structure Categories where
  action_required : List Email
  fyi : List Email
  meetings : List Email
  other : List Email
deriving DecidableEq, Repr

/-- Lines 229-241: append each email to the list of its category,
preserving input order. -/
def categorize : List Email → Categories
  | [] => ⟨[], [], [], []⟩
  | e :: rest =>
    let c := categorize rest
    match classifyEmail e with
    | .action_required => { c with action_required := e :: c.action_required }
    | .fyi => { c with fyi := e :: c.fyi }
    | .meetings => { c with meetings := e :: c.meetings }
    | .other => { c with other := e :: c.other }

/-- Lines 213-216: the pre-filter for `filter_type`. -/
def filterEmails (filter_type : String) (emails : List Email) : List Email :=
  if filter_type = "unread" then emails.filter (fun e => ¬ e.isRead)
  else if filter_type = "important" then emails.filter (fun e => e.importance == some "high")
  else emails

/-- `_generate_email_summary` (lines 264-283). -/
def generate_email_summary (categories : Categories) : String :=
  let parts : List String := []
  let action_count := categories.action_required.length
  let parts := if action_count > 0 then parts ++ [s!"📌 {action_count} email(s) need your attention"] else parts
  let meeting_count := categories.meetings.length
  let parts := if meeting_count > 0 then parts ++ [s!"📅 {meeting_count} meeting-related email(s)"] else parts
  let fyi_count := categories.fyi.length
  let parts := if fyi_count > 0 then parts ++ [s!"📧 {fyi_count} FYI email(s)"] else parts
  if parts = [] then "Your inbox is clear! 🎉"
  else String.intercalate " | " parts

/-- One bucket of the returned summary: full count plus the first five
emails of the category. -/
structure CategoryBucket where
  count : Nat
  emails : List Email
deriving DecidableEq, Repr

/-- The dict returned by `summarize_emails` (lines 243-262).  `categories`
is the literal dict of lines 247-260, kept as an association list in its
insertion order — note it has three keys only. -/
structure EmailSummary where
  total_count : Nat
  unread_count : Nat
  important_count : Nat
  categories : List (String × CategoryBucket)
  summary : String
deriving DecidableEq, Repr

/-- `summarize_emails` (lines 197-262). -/
def summarize_emails (emails : List Email) (filter_type : String) : EmailSummary :=
  let emails := filterEmails filter_type emails
  let cats := categorize emails
  { total_count := emails.length
    unread_count := (emails.filter fun e => ¬ e.isRead).length
    important_count := (emails.filter fun e => e.importance == some "high").length
    categories :=
      [("action_required",
        { count := cats.action_required.length, emails := cats.action_required.take 5 }),
       ("meetings",
        { count := cats.meetings.length, emails := cats.meetings.take 5 }),
       ("fyi",
        { count := cats.fyi.length, emails := cats.fyi.take 5 })]
    summary := generate_email_summary cats }

/-! ## Draft reply (`draft_reply`, lines 285-336) -/

/-- The reply dict. -/
structure Reply where
  «to» : String
  subject : String
  body : String
  tone : String
  intent : String
deriving DecidableEq, Repr

/-- One pass of Python `str.split()`: accumulate the current word
(reversed) and break on whitespace, discarding empty pieces. -/
def pySplitAux : List Char → List Char → List String
  | [], cur => if cur = [] then [] else [String.mk cur.reverse]
  | c :: rest, cur =>
    if c.isWhitespace then
      if cur = [] then pySplitAux rest []
      else String.mk cur.reverse :: pySplitAux rest []
    else pySplitAux rest (c :: cur)

/-- Python `str.split()` with no arguments: split on whitespace runs,
discarding empty pieces. -/
def pySplit (s : String) : List String := pySplitAux s.data []

/-- Line 302: `email.get("from", "").split()[0] if email.get("from") else
"there"`.  The `[0]` indexing raises `IndexError` when the display name is
non-empty but whitespace-only; the error case is made explicit. -/
def senderNameOf (email : Email) : Except String String :=
  let fromVal := email.«from».getD ""
  if fromVal ≠ "" then
    match (pySplit fromVal).head? with
    | some w => .ok w
    | none => .error "IndexError: list index out of range"
  else .ok "there"

/-- `draft_reply` (lines 285-336); `.error` models an uncaught Python
exception. -/
def draft_reply (email : Email) (tone intent : String) : Except String Reply :=
  match senderNameOf email with
  | .error e => .error e
  | .ok sender_name =>
    let subject := email.subject.getD "your email"
    let greeting :=
      if tone = "professional" then s!"Dear {sender_name},"
      else if tone = "friendly" then s!"Hi {sender_name}!"
      else if tone = "brief" then s!"Hi {sender_name},"
      else s!"Dear {sender_name},"
    let body :=
      if intent = "acknowledge" then
        s!"Thank you for your email regarding \"{subject}\". I have received it and will review the details. I'll get back to you shortly with a more detailed response."
      else if intent = "decline" then
        s!"Thank you for reaching out regarding \"{subject}\". After careful consideration, I'm afraid I won't be able to proceed with this at the moment. I appreciate your understanding."
      else if intent = "accept" then
        s!"Thank you for your email regarding \"{subject}\". I'm happy to confirm my acceptance and look forward to moving ahead. Please let me know if you need any additional information from my end."
      else if intent = "follow_up" then
        s!"I wanted to follow up on your previous email regarding \"{subject}\". Please let me know if there are any updates or if you need anything from me to move forward."
      else
        s!"Thank you for your email regarding \"{subject}\". I have received it and will review the details. I'll get back to you shortly with a more detailed response."
    let closing :=
      if tone = "professional" then "Best regards,"
      else if tone = "friendly" then "Cheers,"
      else if tone = "brief" then "Thanks,"
      else "Best regards,"
    .ok { «to» := email.fromEmail.getD "", subject := s!"Re: {subject}",
          body := greeting ++ "\n\n" ++ body ++ "\n\n" ++ closing,
          tone := tone, intent := intent }

/-! ## Lemmas about the stable sort -/

theorem mem_ordInsert (le : α → α → Bool) (a x : α) :
    ∀ l : List α, x ∈ ordInsert le a l ↔ x = a ∨ x ∈ l := by
  intro l
  induction l with
  | nil => simp [ordInsert]
  | cons b l ih =>
    by_cases h : le a b = true
    · simp only [ordInsert, if_pos h, List.mem_cons]
    · simp only [ordInsert, if_neg h, List.mem_cons, ih]
      tauto

theorem pairwise_ordInsert (le : α → α → Bool)
    (htot : ∀ a b, le a b = true ∨ le b a = true)
    (htr : ∀ a b c, le a b = true → le b c = true → le a c = true) (a : α) :
    ∀ l : List α, l.Pairwise (fun x y => le x y = true) →
      (ordInsert le a l).Pairwise (fun x y => le x y = true) := by
  intro l
  induction l with
  | nil => intro _; simp [ordInsert]
  | cons b l ih =>
    intro hp
    rw [List.pairwise_cons] at hp
    obtain ⟨hb, hl⟩ := hp
    by_cases h : le a b = true
    · rw [ordInsert, if_pos h]
      refine List.Pairwise.cons ?_ (List.Pairwise.cons hb hl)
      intro z hz
      rcases List.mem_cons.mp hz with rfl | hzl
      · exact h
      · exact htr a b z h (hb z hzl)
    · rw [ordInsert, if_neg h]
      refine List.Pairwise.cons ?_ (ih hl)
      intro z hz
      rcases (mem_ordInsert le a z l).mp hz with hz1 | hzl
      · rw [hz1]
        rcases htot a b with h1 | h1
        · exact absurd h1 h
        · exact h1
      · exact hb z hzl

theorem pairwise_stableSort (le : α → α → Bool)
    (htot : ∀ a b, le a b = true ∨ le b a = true)
    (htr : ∀ a b c, le a b = true → le b c = true → le a c = true) :
    ∀ l : List α, (stableSort le l).Pairwise (fun x y => le x y = true) := by
  intro l
  induction l with
  | nil => simp [stableSort]
  | cons a l ih => exact pairwise_ordInsert le htot htr a _ ih

theorem mem_stableSort (le : α → α → Bool) (x : α) :
    ∀ l : List α, x ∈ stableSort le l ↔ x ∈ l := by
  intro l
  induction l with
  | nil => simp [stableSort]
  | cons a l ih =>
    rw [stableSort, mem_ordInsert, ih, List.mem_cons]

theorem filter_ordInsert (le : α → α → Bool) (p : α → Bool)
    (hup : ∀ a b, p a = true → p b = true → le a b = true) (a : α) :
    ∀ l : List α,
      (ordInsert le a l).filter p = if p a then a :: l.filter p else l.filter p := by
  intro l
  induction l with
  | nil => by_cases h : p a <;> simp [ordInsert, List.filter_cons, h]
  | cons b l ih =>
    by_cases hab : le a b = true
    · rw [ordInsert, if_pos hab]
      by_cases hpa : p a <;> simp [List.filter_cons, hpa]
    · rw [ordInsert, if_neg hab]
      by_cases hpa : p a
      · have hpb : ¬ p b = true := fun hpb => hab (hup a b hpa hpb)
        simp [List.filter_cons, hpa, hpb, ih]
      · by_cases hpb : p b <;> simp [List.filter_cons, hpa, hpb, ih]

theorem filter_stableSort (le : α → α → Bool) (p : α → Bool)
    (hup : ∀ a b, p a = true → p b = true → le a b = true) :
    ∀ l : List α, (stableSort le l).filter p = l.filter p := by
  intro l
  induction l with
  | nil => rfl
  | cons a l ih =>
    rw [stableSort, filter_ordInsert le p hup a _, ih, List.filter_cons]

/-! ## Lemmas about the slot-finder loop -/

theorem firstConflict_none (current slotEnd : Int) :
    ∀ busy, firstConflict current slotEnd busy = none →
      ∀ b ∈ busy, slotEnd ≤ b.1 ∨ current ≥ b.2 := by
  intro busy
  induction busy with
  | nil => intro _ b hb; cases hb
  | cons b rest ih =>
    rw [firstConflict]
    by_cases h : ¬ (slotEnd ≤ b.1 ∨ current ≥ b.2)
    · rw [if_pos h]; intro hc; cases hc
    · rw [if_neg h]
      intro hn c hc
      rcases List.mem_cons.mp hc with rfl | hcr
      · exact not_not.mp h
      · exact ih hn c hcr

theorem firstConflict_lt (current slotEnd : Int) :
    ∀ busy busyEnd, firstConflict current slotEnd busy = some busyEnd →
      current < busyEnd := by
  intro busy
  induction busy with
  | nil => intro be h; cases h
  | cons b rest ih =>
    intro be
    rw [firstConflict]
    by_cases h : ¬ (slotEnd ≤ b.1 ∨ current ≥ b.2)
    · rw [if_pos h]
      intro he
      cases he
      push_neg at h
      exact h.2
    · rw [if_neg h]; exact ih be

/-- The context in which the loop of `find_available_slots` appends a slot
starting at `cur`: no busy conflict, the end hour check passed, and the
cursor was either clamped up to `whs` this iteration or already sat inside
working hours — in both cases on a weekday. -/
def EmitSite (busy : List (Int × Int)) (durMin whs whe cur : Int) : Prop :=
  firstConflict cur (cur + durMin * 60) busy = none ∧
  hourOf (cur + durMin * 60) ≤ whe ∧
  ((∃ c0, weekdayOf c0 < 5 ∧ hourOf c0 < whs ∧ cur = replaceHM c0 whs 0) ∨
   (weekdayOf cur < 5 ∧ ¬ hourOf cur < whs ∧ hourOf cur < whe))

/-- Every slot in a successful result of `findLoop` either was in the
accumulator already or was emitted at an `EmitSite`. -/
theorem findLoop_emitted (busy : List (Int × Int)) (durMin whs whe endT : Int)
    (P : Slot → Prop)
    (hemit : ∀ cur, EmitSite busy durMin whs whe cur →
      P (mkSlot cur (cur + durMin * 60) durMin)) :
    ∀ fuel current acc slots,
      findLoop busy durMin whs whe endT fuel current acc = some slots →
      (∀ s ∈ acc, P s) → ∀ s ∈ slots, P s := by
  intro fuel
  induction fuel with
  | zero => intro current acc slots h; cases h
  | succ n ih =>
    intro current acc slots h hacc
    rw [findLoop] at h
    by_cases hc : current < endT ∧ acc.length < 10
    · rw [if_pos hc] at h
      by_cases hw : weekdayOf current ≥ 5
      · rw [if_pos hw] at h
        exact ih _ _ _ h hacc
      · rw [if_neg hw] at h
        by_cases hh1 : hourOf current < whs
        · rw [if_pos hh1] at h
          rcases hfc : firstConflict (replaceHM current whs 0)
              (replaceHM current whs 0 + durMin * 60) busy with _ | be
          · simp only [candidateStep, hfc] at h
            by_cases hhe : hourOf (replaceHM current whs 0 + durMin * 60) ≤ whe
            · rw [if_pos hhe] at h
              refine ih _ _ _ h ?_
              intro s hs
              rcases List.mem_append.mp hs with hs1 | hs2
              · exact hacc s hs1
              · rcases List.mem_singleton.mp hs2 with rfl
                exact hemit _ ⟨hfc, hhe, Or.inl ⟨current, lt_of_not_ge hw, hh1, rfl⟩⟩
            · rw [if_neg hhe] at h
              exact ih _ _ _ h hacc
          · simp only [candidateStep, hfc] at h
            exact ih _ _ _ h hacc
        · rw [if_neg hh1] at h
          by_cases hh2 : hourOf current ≥ whe
          · rw [if_pos hh2] at h
            exact ih _ _ _ h hacc
          · rw [if_neg hh2] at h
            rcases hfc : firstConflict current (current + durMin * 60) busy with _ | be
            · simp only [candidateStep, hfc] at h
              by_cases hhe : hourOf (current + durMin * 60) ≤ whe
              · rw [if_pos hhe] at h
                refine ih _ _ _ h ?_
                intro s hs
                rcases List.mem_append.mp hs with hs1 | hs2
                · exact hacc s hs1
                · rcases List.mem_singleton.mp hs2 with rfl
                  exact hemit _
                    ⟨hfc, hhe, Or.inr ⟨lt_of_not_ge hw, hh1, lt_of_not_ge hh2⟩⟩
              · rw [if_neg hhe] at h
                exact ih _ _ _ h hacc
            · simp only [candidateStep, hfc] at h
              exact ih _ _ _ h hacc
    · rw [if_neg hc] at h
      cases h
      exact hacc

/-! ## Arithmetic facts about the time model -/

theorem hourOf_replaceHM (t h m : Int) (h0 : 0 ≤ h) (h23 : h ≤ 23)
    (m0 : 0 ≤ m) (m59 : m ≤ 59) : hourOf (replaceHM t h m) = h := by
  simp only [hourOf, replaceHM, dayOf]
  omega

theorem weekdayOf_replaceHM (t h m : Int) (h0 : 0 ≤ h) (h23 : h ≤ 23)
    (m0 : 0 ≤ m) (m59 : m ≤ 59) : weekdayOf (replaceHM t h m) = weekdayOf t := by
  have hd : dayOf (replaceHM t h m) = dayOf t := by
    simp only [dayOf, replaceHM]
    omega
  simp only [weekdayOf, hd]

theorem lt_nextDayAt (t h : Int) (h0 : 0 ≤ h) : t < nextDayAt t h := by
  simp only [nextDayAt, replaceHM, dayOf]
  omega

theorem lt_replaceHM_of_hour_lt (t h : Int) (hlt : hourOf t < h) :
    t < replaceHM t h 0 := by
  simp only [hourOf] at hlt
  simp only [replaceHM, dayOf]
  omega

/-! ## Soundness of the slot finder (shared by several claims) -/

/-- Every slot of a successful `find_available_slots` run is disjoint from
every busy interval derived from the events. -/
theorem find_available_slots_sound (events : List CalendarEvent) (durMin : Int)
    (sd ed : Option Int) (whs whe now : Int) (fuel : Nat) (slots : List Slot)
    (h : find_available_slots events durMin sd ed whs whe now fuel = some slots) :
    ∀ s ∈ slots, ∀ b ∈ busyIntervalsOf events, s.«end» ≤ b.1 ∨ s.start ≥ b.2 := by
  simp only [find_available_slots] at h
  refine findLoop_emitted _ _ _ _ _
    (fun s => ∀ b ∈ busyIntervalsOf events, s.«end» ≤ b.1 ∨ s.start ≥ b.2)
    ?_ _ _ _ _ h ?_
  · intro cur hsite b hb
    have hb2 : b ∈ stableSort (fun a b => decide (a.1 ≤ b.1)) (busyIntervalsOf events) :=
      (mem_stableSort _ _ _).mpr hb
    exact firstConflict_none _ _ _ hsite.1 b hb2
  · intro s hs
    cases hs

/-! ## Claim C1: returned slots are disjoint from all busy intervals -/

/-- C1: for every list of calendar events and every duration/date/working-hour
parameters, every Slot returned by `find_available_slots` is fully disjoint
from every BusyInterval derived from the events: for each busy interval,
`slot.end ≤ busy.start` or `slot.start ≥ busy.end`. -/
theorem find_available_slots_disjoint_from_busy (events : List CalendarEvent)
    (durMin : Int) (sd ed : Option Int) (whs whe now : Int) (fuel : Nat)
    (slots : List Slot)
    (h : find_available_slots events durMin sd ed whs whe now fuel = some slots) :
    ∀ s ∈ slots, ∀ b ∈ busyIntervalsOf events, s.«end» ≤ b.1 ∨ s.start ≥ b.2 :=
  find_available_slots_sound events durMin sd ed whs whe now fuel slots h

/-- A one-event calendar (meeting Jan 2 09:00–10:00) used as concrete input. -/
def evC1 : List CalendarEvent :=
  [{ subject := "standup", start? := some 118800, end? := some 122400 }]

/-- The two slots found on `evC1`, Jan 2 between 09:00 and 11:00. -/
def slotsC1 : List Slot :=
  [{ start := 122400, «end» := 124200, duration_minutes := 30, day := "Tuesday, January 02" },
   { start := 124200, «end» := 126000, duration_minutes := 30, day := "Tuesday, January 02" }]

/-- First slot of `slotsC1`. -/
def slotC1 : Slot :=
  { start := 122400, «end» := 124200, duration_minutes := 30, day := "Tuesday, January 02" }

theorem find_available_slots_disjoint_from_busy_witness :
    find_available_slots evC1 30 (some 86400) (some 126000) 9 17 0 60 = some slotsC1 ∧
    slotC1 ∈ slotsC1 ∧ ((118800 : Int), (122400 : Int)) ∈ busyIntervalsOf evC1 ∧
    (slotC1.«end» ≤ 118800 ∨ slotC1.start ≥ 122400) :=
  ⟨by decide, by decide, by decide,
   find_available_slots_disjoint_from_busy evC1 30 (some 86400) (some 126000) 9 17 0 60
     slotsC1 (by decide) slotC1 (by decide) (118800, 122400) (by decide)⟩

/-! ## Claim C2: slots versus the working-hour window -/

/-- C2 as stated is refuted: with working hours 9–17, a 45-minute candidate
starting Tuesday 16:45 is emitted although it ends at 17:30 — the end-hour
check `slot_end.hour <= working_hours_end` lets 17:xx ends through, so the
slot's end does not fall within `[9, 17)`. -/
theorem slot_emitted_ending_after_working_hours :
    find_available_slots [] 45 (some 146700) (some 151200) 9 17 0 50 =
      some [{ start := 146700, «end» := 149400, duration_minutes := 45,
              day := "Tuesday, January 02" }] ∧
    ¬ hourOf (149400 : Int) < 17 :=
  ⟨by decide, by decide⟩

/-- C2 amended: for valid working-hour parameters
(`0 ≤ whs ≤ 23`, `whs < whe`), every returned Slot starts on a weekday with
start hour inside `[whs, whe)`, and the slot's end hour never exceeds `whe`
(but may equal it, so the end itself can lie outside `[whs, whe)`). -/
theorem find_available_slots_start_in_working_hours (events : List CalendarEvent)
    (durMin : Int) (sd ed : Option Int) (whs whe now : Int) (fuel : Nat)
    (slots : List Slot) (h0 : 0 ≤ whs) (h23 : whs ≤ 23) (hlt : whs < whe)
    (h : find_available_slots events durMin sd ed whs whe now fuel = some slots) :
    ∀ s ∈ slots, weekdayOf s.start < 5 ∧ whs ≤ hourOf s.start ∧
      hourOf s.start < whe ∧ hourOf s.«end» ≤ whe := by
  simp only [find_available_slots] at h
  refine findLoop_emitted _ _ _ _ _
    (fun s => weekdayOf s.start < 5 ∧ whs ≤ hourOf s.start ∧
      hourOf s.start < whe ∧ hourOf s.«end» ≤ whe)
    ?_ _ _ _ _ h (by intro s hs; cases hs)
  intro cur hsite
  obtain ⟨hfc, hhe, hctx⟩ := hsite
  rcases hctx with ⟨c0, hwk, hh, hcur⟩ | ⟨hwk, hge, hlt2⟩
  · subst hcur
    refine ⟨?_, ?_, ?_, hhe⟩
    · show weekdayOf (replaceHM c0 whs 0) < 5
      rw [weekdayOf_replaceHM c0 whs 0 h0 h23 (by omega) (by omega)]
      exact hwk
    · show whs ≤ hourOf (replaceHM c0 whs 0)
      rw [hourOf_replaceHM c0 whs 0 h0 h23 (by omega) (by omega)]
    · show hourOf (replaceHM c0 whs 0) < whe
      rw [hourOf_replaceHM c0 whs 0 h0 h23 (by omega) (by omega)]
      exact hlt
  · exact ⟨hwk, not_lt.mp hge, hlt2, hhe⟩

/-- The 16:45–17:30 slot of the C2 refutation run. -/
def slotC2 : Slot :=
  { start := 146700, «end» := 149400, duration_minutes := 45, day := "Tuesday, January 02" }

theorem find_available_slots_start_in_working_hours_witness :
    (0 : Int) ≤ 9 ∧ (9 : Int) ≤ 23 ∧ (9 : Int) < 17 ∧
    find_available_slots [] 45 (some 146700) (some 151200) 9 17 0 50 = some [slotC2] ∧
    slotC2 ∈ [slotC2] ∧
    (weekdayOf slotC2.start < 5 ∧ 9 ≤ hourOf slotC2.start ∧
      hourOf slotC2.start < 17 ∧ hourOf slotC2.«end» ≤ 17) :=
  ⟨by decide, by decide, by decide, by decide, by decide,
   find_available_slots_start_in_working_hours [] 45 (some 146700) (some 151200) 9 17 0 50
     [slotC2] (by decide) (by decide) (by decide) (by decide) slotC2 (by decide)⟩

/-! ## Claim C9: round-trip — slots of a second run avoid first-run slots -/

/-- Treat a found slot as a (busy) calendar event, the round-trip
construction of the spec. -/
def slotToEvent (s : Slot) : CalendarEvent :=
  { subject := "Busy", start? := some s.start, end? := some s.«end» }

/-- C9: if the slots of a first `find_available_slots` run are appended to
the calendar as busy events, every slot of a second run over the same
parameters is disjoint from every slot of the first run. -/
theorem find_available_slots_roundtrip_disjoint (events : List CalendarEvent)
    (durMin : Int) (sd ed : Option Int) (whs whe now : Int) (fuel1 fuel2 : Nat)
    (slots1 slots2 : List Slot)
    (h1 : find_available_slots events durMin sd ed whs whe now fuel1 = some slots1)
    (h2 : find_available_slots (events ++ slots1.map slotToEvent) durMin sd ed whs whe now
            fuel2 = some slots2) :
    ∀ s2 ∈ slots2, ∀ s1 ∈ slots1, s2.«end» ≤ s1.start ∨ s2.start ≥ s1.«end» := by
  intro s2 hs2 s1 hs1
  have hmem : (s1.start, s1.«end») ∈ busyIntervalsOf (events ++ slots1.map slotToEvent) := by
    simp only [busyIntervalsOf, List.filterMap_append]
    refine List.mem_append.mpr (Or.inr ?_)
    exact List.mem_filterMap.mpr ⟨slotToEvent s1, List.mem_map_of_mem _ hs1, rfl⟩
  exact find_available_slots_sound _ _ _ _ _ _ _ _ _ h2 s2 hs2 _ hmem

/-- First-run slots for the round-trip witness: Jan 2 09:00 onwards,
60-minute slots, empty calendar, 10-slot cap. -/
def slotsR1 : List Slot :=
  [{ start := 118800, «end» := 122400, duration_minutes := 60, day := "Tuesday, January 02" },
   { start := 122400, «end» := 126000, duration_minutes := 60, day := "Tuesday, January 02" },
   { start := 126000, «end» := 129600, duration_minutes := 60, day := "Tuesday, January 02" },
   { start := 129600, «end» := 133200, duration_minutes := 60, day := "Tuesday, January 02" },
   { start := 133200, «end» := 136800, duration_minutes := 60, day := "Tuesday, January 02" },
   { start := 136800, «end» := 140400, duration_minutes := 60, day := "Tuesday, January 02" },
   { start := 140400, «end» := 144000, duration_minutes := 60, day := "Tuesday, January 02" },
   { start := 144000, «end» := 147600, duration_minutes := 60, day := "Tuesday, January 02" },
   { start := 205200, «end» := 208800, duration_minutes := 60, day := "Wednesday, January 03" },
   { start := 208800, «end» := 212400, duration_minutes := 60, day := "Wednesday, January 03" }]

/-- Second-run slots for the round-trip witness. -/
def slotsR2 : List Slot :=
  [{ start := 212400, «end» := 216000, duration_minutes := 60, day := "Wednesday, January 03" },
   { start := 216000, «end» := 219600, duration_minutes := 60, day := "Wednesday, January 03" },
   { start := 219600, «end» := 223200, duration_minutes := 60, day := "Wednesday, January 03" },
   { start := 223200, «end» := 226800, duration_minutes := 60, day := "Wednesday, January 03" },
   { start := 226800, «end» := 230400, duration_minutes := 60, day := "Wednesday, January 03" },
   { start := 230400, «end» := 234000, duration_minutes := 60, day := "Wednesday, January 03" }]

/-- Head slot of the second round-trip run. -/
def slotR2 : Slot :=
  { start := 212400, «end» := 216000, duration_minutes := 60, day := "Wednesday, January 03" }

/-- Head slot of the first round-trip run. -/
def slotR1 : Slot :=
  { start := 118800, «end» := 122400, duration_minutes := 60, day := "Tuesday, January 02" }

theorem find_available_slots_roundtrip_disjoint_witness :
    find_available_slots [] 60 (some 118800) (some 259200) 9 17 0 80 = some slotsR1 ∧
    find_available_slots ([] ++ slotsR1.map slotToEvent) 60 (some 118800) (some 259200)
      9 17 0 80 = some slotsR2 ∧
    slotR2 ∈ slotsR2 ∧ slotR1 ∈ slotsR1 ∧
    (slotR2.«end» ≤ slotR1.start ∨ slotR2.start ≥ slotR1.«end») :=
  ⟨by decide, by decide, by decide, by decide,
   find_available_slots_roundtrip_disjoint [] 60 (some 118800) (some 259200) 9 17 0 80 80
     slotsR1 slotsR2 (by decide) (by decide) slotR2 (by decide) slotR1 (by decide)⟩

/-! ## Claim C10: termination of the scanning loop -/

/-- With a non-negative duration the loop terminates: every iteration either
moves the cursor strictly forward or (only when the duration is zero) emits
a slot, and at most ten slots are ever collected. -/
theorem findLoop_isSome (busy : List (Int × Int)) (durMin whs whe endT : Int)
    (hd : 0 ≤ durMin) (h0 : 0 ≤ whs) :
    ∀ fuel current acc,
      ((endT - current).toNat + (10 - acc.length) : Nat) < fuel →
      (findLoop busy durMin whs whe endT fuel current acc).isSome := by
  intro fuel
  induction fuel with
  | zero => intro current acc h; omega
  | succ n ih =>
    intro current acc hmeas
    rw [findLoop]
    by_cases hc : current < endT ∧ acc.length < 10
    · rw [if_pos hc]
      obtain ⟨hce, hcl⟩ := hc
      by_cases hw : weekdayOf current ≥ 5
      · rw [if_pos hw]
        have hadv := lt_nextDayAt current whs h0
        refine ih _ _ ?_
        omega
      · rw [if_neg hw]
        by_cases hh1 : hourOf current < whs
        · rw [if_pos hh1]
          have hadv := lt_replaceHM_of_hour_lt current whs hh1
          rcases hfc : firstConflict (replaceHM current whs 0)
              (replaceHM current whs 0 + durMin * 60) busy with _ | be
          · simp only [candidateStep, hfc]
            by_cases hhe : hourOf (replaceHM current whs 0 + durMin * 60) ≤ whe
            · rw [if_pos hhe]
              refine ih _ _ ?_
              have hlen : (acc ++ [mkSlot (replaceHM current whs 0)
                  (replaceHM current whs 0 + durMin * 60) durMin]).length
                    = acc.length + 1 := by simp
              omega
            · rw [if_neg hhe]
              refine ih _ _ ?_
              omega
          · simp only [candidateStep, hfc]
            have hbe := firstConflict_lt _ _ _ _ hfc
            refine ih _ _ ?_
            omega
        · rw [if_neg hh1]
          by_cases hh2 : hourOf current ≥ whe
          · rw [if_pos hh2]
            have hadv := lt_nextDayAt current whs h0
            refine ih _ _ ?_
            omega
          · rw [if_neg hh2]
            rcases hfc : firstConflict current (current + durMin * 60) busy with _ | be
            · simp only [candidateStep, hfc]
              by_cases hhe : hourOf (current + durMin * 60) ≤ whe
              · rw [if_pos hhe]
                refine ih _ _ ?_
                have hlen : (acc ++ [mkSlot current (current + durMin * 60) durMin]).length
                    = acc.length + 1 := by simp
                omega
              · rw [if_neg hhe]
                have hpos : 0 < durMin := by
                  rcases lt_or_eq_of_le hd with hpos | hzero
                  · exact hpos
                  · exfalso
                    apply hhe
                    have hz : current + durMin * 60 = current := by omega
                    rw [hz]
                    exact le_of_lt (lt_of_not_ge hh2)
                refine ih _ _ ?_
                omega
            · simp only [candidateStep, hfc]
              have hbe := firstConflict_lt _ _ _ _ hfc
              refine ih _ _ ?_
              omega
    · rw [if_neg hc]
      exact rfl

/-- C10 is refuted by negative durations: with duration −900 minutes,
start Tuesday 2024-01-02 and working hours 9–17, the cursor bounces forever
between Monday 18:00 and Tuesday 09:00 without ever emitting a slot, so no
amount of fuel completes the loop. -/
theorem findLoop_negative_duration_cycle :
    ∀ n, findLoop [] (-900) 9 17 518400 n 64800 [] = none ∧
         findLoop [] (-900) 9 17 518400 n 118800 [] = none := by
  intro n
  induction n with
  | zero => exact ⟨rfl, rfl⟩
  | succ m ih =>
    constructor
    · have h1 : findLoop [] (-900) 9 17 518400 (m + 1) 64800 [] =
          findLoop [] (-900) 9 17 518400 m 118800 [] := rfl
      rw [h1]
      exact ih.2
    · have h2 : findLoop [] (-900) 9 17 518400 (m + 1) 118800 [] =
          findLoop [] (-900) 9 17 518400 m 64800 [] := rfl
      rw [h2]
      exact ih.1

/-- C10 as stated (termination for every integer duration, including
negative ones) is false: `find_available_slots` with duration −900 on an
empty calendar never returns, whatever the fuel. -/
theorem find_available_slots_diverges_on_negative_duration :
    ¬ ∃ fuel slots,
        find_available_slots [] (-900) (some 86400) (some 518400) 9 17 0 fuel
          = some slots := by
  rintro ⟨fuel, slots, h⟩
  have hstart : ∀ n, findLoop [] (-900) 9 17 518400 n 86400 [] = none := by
    intro n
    match n with
    | 0 => rfl
    | m + 1 =>
      have h1 : findLoop [] (-900) 9 17 518400 (m + 1) 86400 [] =
          findLoop [] (-900) 9 17 518400 m 64800 [] := rfl
      rw [h1]
      exact (findLoop_negative_duration_cycle m).1
  have heq : find_available_slots [] (-900) (some 86400) (some 518400) 9 17 0 fuel =
      findLoop [] (-900) 9 17 518400 fuel 86400 [] := rfl
  rw [heq, hstart fuel] at h
  cases h

/-- From any cursor a sufficient amount of fuel exists (duration ≥ 0). -/
theorem findLoop_exists_fuel (busy : List (Int × Int)) (durMin whs whe endT : Int)
    (hd : 0 ≤ durMin) (h0 : 0 ≤ whs) (current : Int) :
    ∃ fuel slots, findLoop busy durMin whs whe endT fuel current [] = some slots := by
  refine ⟨(endT - current).toNat + 11, ?_⟩
  have h := findLoop_isSome busy durMin whs whe endT hd h0
    ((endT - current).toNat + 11) current [] (by simp only [List.length_nil]; omega)
  exact Option.isSome_iff_exists.mp h

/-- C10 amended: the loop terminates for every event list, dates and
working-hour end whenever the duration is non-negative and
`working_hours_start` is a valid hour value: some fuel makes the embedded
loop finish, i.e. the Python loop performs finitely many iterations. -/
theorem find_available_slots_terminates_nonneg_duration (events : List CalendarEvent)
    (durMin : Int) (sd ed : Option Int) (whs whe now : Int)
    (hd : 0 ≤ durMin) (h0 : 0 ≤ whs) :
    ∃ fuel slots,
      find_available_slots events durMin sd ed whs whe now fuel = some slots := by
  exact findLoop_exists_fuel _ durMin whs whe _ hd h0 _

theorem find_available_slots_terminates_nonneg_duration_witness :
    (0 : Int) ≤ 30 ∧ (0 : Int) ≤ 9 ∧
    ∃ fuel slots,
      find_available_slots evC1 30 (some 86400) (some 126000) 9 17 0 fuel = some slots :=
  ⟨by decide, by decide,
   find_available_slots_terminates_nonneg_duration evC1 30 (some 86400) (some 126000)
     9 17 0 (by decide) (by decide)⟩

/-! ## Claim C3: prioritizer output — no completed tasks, sorted, stable -/

/-- C3: `prioritize_tasks` never returns a completed task, its output is
sorted by descending `priority_score`, and the sort is stable: for every
score value, the output's tasks of that score are exactly the scored tasks
of that score in original input order. -/
theorem prioritize_tasks_no_completed_sorted_stable (tasks : List Task)
    (criteria : String) (now : Int) :
    (∀ p ∈ prioritize_tasks tasks criteria now, p.task.status ≠ some "completed") ∧
    (prioritize_tasks tasks criteria now).Pairwise
      (fun a b => b.priority_score ≤ a.priority_score) ∧
    ∀ c : Int,
      (prioritize_tasks tasks criteria now).filter (fun p => p.priority_score == c) =
        ((tasks.filter fun t => !(t.status == some "completed")).map
          (scoreTask criteria now)).filter (fun p => p.priority_score == c) := by
  refine ⟨?_, ?_, ?_⟩
  · intro p hp
    simp only [prioritize_tasks] at hp
    rw [mem_stableSort] at hp
    rcases List.mem_map.mp hp with ⟨t, ht, rfl⟩
    have h2 := (List.mem_filter.mp ht).2
    show t.status ≠ some "completed"
    simpa using h2
  · simp only [prioritize_tasks]
    have hp := pairwise_stableSort
      (fun a b : PrioritizedTask => decide (b.priority_score ≤ a.priority_score))
      (fun a b => by
        rcases Int.le_total b.priority_score a.priority_score with h | h
        · exact Or.inl (decide_eq_true h)
        · exact Or.inr (decide_eq_true h))
      (fun a b c h1 h2 =>
        decide_eq_true (le_trans (of_decide_eq_true h2) (of_decide_eq_true h1)))
      ((tasks.filter fun t => !(t.status == some "completed")).map (scoreTask criteria now))
    exact hp.imp fun h => of_decide_eq_true h
  · intro c
    simp only [prioritize_tasks]
    refine filter_stableSort _ _ (fun a b ha hb => decide_eq_true ?_) _
    have ha2 : a.priority_score = c := by simpa using ha
    have hb2 : b.priority_score = c := by simpa using hb
    omega

/-- Four tasks, two of them tied at score 0, one completed. -/
def tasksC3 : List Task :=
  [{ title := "a", listName := "l", status := none, importance := some "low",
     dueDate := none, body := "" },
   { title := "b", listName := "l", status := none, importance := none,
     dueDate := none, body := "" },
   { title := "c", listName := "l", status := none, importance := none,
     dueDate := none, body := "" },
   { title := "d", listName := "l", status := some "completed",
     importance := some "high", dueDate := none, body := "" }]

/-- Scored form of task "b" of `tasksC3`. -/
def pC3 : PrioritizedTask :=
  { task := { title := "b", listName := "l", status := none, importance := none,
              dueDate := none, body := "" },
    priority_score := 0, priority_reasons := [],
    recommendation := "🟢 Can wait - schedule when convenient" }

theorem prioritize_tasks_no_completed_sorted_stable_witness :
    pC3 ∈ prioritize_tasks tasksC3 "urgency" 0 ∧ pC3.task.status ≠ some "completed" :=
  ⟨by decide,
   (prioritize_tasks_no_completed_sorted_stable tasksC3 "urgency" 0).1 pC3 (by decide)⟩

/-! ## Claim C6: every criteria other than "importance" acts like "urgency" -/

/-- C6: `prioritize_tasks` with any `criteria` other than `"importance"`
(in particular `"balanced"`, and any unrecognized value) returns exactly the
`"urgency"` output. -/
theorem prioritize_tasks_criteria_fallback (tasks : List Task) (criteria : String)
    (now : Int) (hc : criteria ≠ "importance") :
    prioritize_tasks tasks criteria now = prioritize_tasks tasks "urgency" now := by
  have hui : ("urgency" : String) ≠ "importance" := by decide
  have hs : ∀ t, scoreTask criteria now t = scoreTask "urgency" now t := by
    intro t
    by_cases hu : criteria = "urgency"
    · rw [hu]
    · simp [scoreTask, hc, hu, hui]
  simp only [prioritize_tasks]
  congr 1
  exact List.map_congr_left fun t _ => hs t

theorem prioritize_tasks_criteria_fallback_witness :
    ("balanced" : String) ≠ "importance" ∧
    prioritize_tasks tasksC3 "balanced" 0 = prioritize_tasks tasksC3 "urgency" 0 :=
  ⟨by decide, prioritize_tasks_criteria_fallback tasksC3 "balanced" 0 (by decide)⟩

/-! ## Claim C7: high importance plus due today gives score 70, immediate -/

/-- C7: a non-completed task of high importance whose due date is "today"
(`(due - now).days == 0`) is scored 30 + 40 = 70 with the reason
"Due TODAY" and the immediate recommendation tier, for every criteria other
than `"importance"`. -/
theorem prioritize_tasks_high_due_today_scores_70 (t : Task) (criteria : String)
    (now due : Int) (hst : ¬ t.status = some "completed")
    (himp : t.importance = some "high") (hdue : t.dueDate = some due)
    (htoday : (due - now) / 86400 = 0) (hc : criteria ≠ "importance") :
    prioritize_tasks [t] criteria now =
      [{ task := t, priority_score := 70,
         priority_reasons := ["High importance", "Due TODAY"],
         recommendation := "🔴 Do this immediately" }] := by
  have hf : (!(t.status == some "completed")) = true := by simp [hst]
  simp only [prioritize_tasks, List.filter_cons, List.filter_nil, hf, if_true,
    List.map_cons, List.map_nil, stableSort, ordInsert]
  simp [scoreTask, get_task_recommendation, himp, hdue, htoday, hc, ite_self]

/-- A concrete high-importance task due within the day. -/
def taskC7 : Task :=
  { title := "report", listName := "work", status := none,
    importance := some "high", dueDate := some 3600, body := "" }

theorem prioritize_tasks_high_due_today_scores_70_witness :
    ¬ taskC7.status = some "completed" ∧ taskC7.importance = some "high" ∧
    taskC7.dueDate = some 3600 ∧ ((3600 : Int) - 0) / 86400 = 0 ∧
    ("urgency" : String) ≠ "importance" ∧
    prioritize_tasks [taskC7] "urgency" 0 =
      [{ task := taskC7, priority_score := 70,
         priority_reasons := ["High importance", "Due TODAY"],
         recommendation := "🔴 Do this immediately" }] :=
  ⟨by decide, rfl, rfl, by decide, by decide,
   prioritize_tasks_high_due_today_scores_70 taskC7 "urgency" 0 3600 (by decide) rfl rfl
     (by decide) (by decide)⟩

/-! ## Claim C5: the returned summary has three buckets, not four -/

theorem classifyEmail_ne_other (e : Email) : classifyEmail e ≠ Category.other := by
  rw [classifyEmail]
  split
  · exact fun h => Category.noConfusion h
  · split
    · exact fun h => Category.noConfusion h
    · split
      · exact fun h => Category.noConfusion h
      · exact fun h => Category.noConfusion h

/-- The classification loop never places an email in the "other" category. -/
theorem categorize_other_nil : ∀ l : List Email, (categorize l).other = [] := by
  intro l
  induction l with
  | nil => rfl
  | cons e rest ih =>
    rw [categorize]
    cases hcl : classifyEmail e
    case action_required => exact ih
    case fyi => exact ih
    case meetings => exact ih
    case other => exact absurd hcl (classifyEmail_ne_other e)

/-- C5 as stated is refuted: the `categories` dict returned by
`summarize_emails` has no "other" key — only three buckets come back. -/
theorem summarize_emails_no_other_bucket :
    ¬ ("other" ∈ (summarize_emails [] "all").categories.map Prod.fst) := by
  decide

/-- C5 amended: `summarize_emails` returns exactly three category buckets —
action_required, meetings and fyi — each holding the category's full count
plus the first five of its emails in original order; the internal "other"
category is never populated and is absent from the returned summary. -/
theorem summarize_emails_three_buckets (emails : List Email) (filter_type : String) :
    (summarize_emails emails filter_type).categories =
      [("action_required",
        { count := (categorize (filterEmails filter_type emails)).action_required.length,
          emails := (categorize (filterEmails filter_type emails)).action_required.take 5 }),
       ("meetings",
        { count := (categorize (filterEmails filter_type emails)).meetings.length,
          emails := (categorize (filterEmails filter_type emails)).meetings.take 5 }),
       ("fyi",
        { count := (categorize (filterEmails filter_type emails)).fyi.length,
          emails := (categorize (filterEmails filter_type emails)).fyi.take 5 })] ∧
    (categorize (filterEmails filter_type emails)).other = [] :=
  ⟨rfl, categorize_other_nil _⟩

/-! ## Claim C8: the meeting rule is checked first and wins -/

/-- The meetings category of the loop is the sublist of emails classified
`meetings`, in input order. -/
theorem categorize_meetings_eq_filter : ∀ l : List Email,
    (categorize l).meetings = l.filter (fun e => classifyEmail e == Category.meetings) := by
  intro l
  induction l with
  | nil => rfl
  | cons e rest ih =>
    rw [categorize, List.filter_cons]
    cases hcl : classifyEmail e
    case action_required =>
      simp only [hcl, ih]
      rw [if_neg (by decide)]
    case fyi =>
      simp only [hcl, ih]
      rw [if_neg (by decide)]
    case meetings =>
      simp only [hcl, ih]
      rw [if_pos (by decide)]
    case other =>
      simp only [hcl, ih]
      rw [if_neg (by decide)]

/-- C8: an email of the filtered list whose lowercase subject+preview text
contains a meeting keyword is always classified `meetings` — even if it also
contains action keywords — and lands in the meetings bucket collected by
`summarize_emails`. -/
theorem summarize_emails_meeting_keyword_wins (emails : List Email)
    (filter_type : String) (e : Email)
    (hmem : e ∈ filterEmails filter_type emails)
    (hkw : meeting_keywords.any (fun kw => containsSub (combinedText e) kw) = true) :
    classifyEmail e = Category.meetings ∧
    e ∈ (categorize (filterEmails filter_type emails)).meetings ∧
    (summarize_emails emails filter_type).categories.lookup "meetings" =
      some { count := (categorize (filterEmails filter_type emails)).meetings.length,
             emails := (categorize (filterEmails filter_type emails)).meetings.take 5 } := by
  have hcl : classifyEmail e = Category.meetings := by
    rw [classifyEmail, if_pos hkw]
  refine ⟨hcl, ?_, ?_⟩
  · rw [categorize_meetings_eq_filter]
    refine List.mem_filter.mpr ⟨hmem, ?_⟩
    rw [hcl]
    decide
  · rfl

/-- An email matching both a meeting and an action keyword. -/
def emailC8 : Email :=
  { subject := some "Team meeting", «from» := some "Ann B",
    fromEmail := some "ann@x.com", receivedDateTime := none, isRead := false,
    importance := some "high", preview := some "please review the agenda" }

theorem summarize_emails_meeting_keyword_wins_witness :
    emailC8 ∈ filterEmails "all" [emailC8] ∧
    meeting_keywords.any (fun kw => containsSub (combinedText emailC8) kw) = true ∧
    classifyEmail emailC8 = Category.meetings :=
  ⟨by decide, by decide,
   (summarize_emails_meeting_keyword_wins [emailC8] "all" emailC8 (by decide) (by decide)).1⟩

/-! ## Claim C4: error handling of malformed per-record data -/

/-- An email whose "from" display name is a single space. -/
def emailWhitespaceFrom : Email :=
  { subject := some "Lunch", «from» := some " ", fromEmail := some "j@x.com",
    receivedDateTime := none, isRead := false, importance := none, preview := none }

/-- An email lacking the "from" field. -/
def emailNoFrom : Email :=
  { subject := some "Lunch", «from» := none, fromEmail := some "j@x.com",
    receivedDateTime := none, isRead := false, importance := none, preview := none }

/-- C4 is violated by the code: the fallback to "there" only covers a falsy
`from`; a non-empty whitespace-only display name makes
`email.get("from", "").split()[0]` raise `IndexError` (the split is empty),
so `draft_reply` does not degrade gracefully on this malformed record. -/
theorem draft_reply_raises_on_whitespace_from :
    senderNameOf emailNoFrom = Except.ok "there" ∧
    draft_reply emailWhitespaceFrom "professional" "acknowledge"
      = Except.error "IndexError: list index out of range" :=
  ⟨rfl, rfl⟩
